import Mathlib

/-!
Verification development for the fhirDemo repository: a shallow embedding of
the backend-to-FHIR Patient transformation pipeline, the Go HTTP proxy
handlers with their in-memory patient store, and the Java HAPI-based
validation service, together with theorems settling the specification's
claims about them.

Strings of the Go/Java sources are modelled as lists of characters
(`GoStr`), so that byte-level slicing (`s[:i]`) matches `List.take` on the
ASCII inputs the claims exercise.  JSON documents are modelled by the `Json`
inductive; `json.Unmarshal` of a whole body is modelled by taking the parsed
`Json` value (with `Option` for malformed input), and the one place the code
parses a string found inside a document (the `data` envelope) uses the
executable `parseJson` below.
-/

abbrev GoStr := List Char

/-- Whitespace set of Go's `strings.TrimSpace` / `unicode.IsSpace`,
restricted to ASCII (the only inputs exercised here). -/
def isSpaceGo (c : Char) : Bool :=
  c == ' ' || c == '\t' || c == '\n' || c == '\r' ||
  c == Char.ofNat 11 || c == Char.ofNat 12

def trimLeftGo (s : GoStr) : GoStr := s.dropWhile isSpaceGo

/-- Go `strings.TrimSpace` (ASCII model). -/
def trimSpace (s : GoStr) : GoStr :=
  (trimLeftGo ((trimLeftGo s).reverse)).reverse

/-- ASCII lower-casing, modelling Go `strings.ToLower` on ASCII input. -/
def toLowerChar (c : Char) : Char :=
  if 'A' ≤ c ∧ c ≤ 'Z' then Char.ofNat (c.toNat + 32) else c

def toLowerStr (s : GoStr) : GoStr := s.map toLowerChar

/-- Go `strings.EqualFold` (ASCII model). -/
def equalFold (a b : GoStr) : Bool := toLowerStr a == toLowerStr b

/-- `startsWith p s` models Go `strings.HasPrefix(s, p)`. -/
def startsWith : GoStr → GoStr → Bool
  | [], _ => true
  | _ :: _, [] => false
  | p :: ps, c :: cs => p == c && startsWith ps cs

/-- `endsWith p s` models Go `strings.HasSuffix(s, p)`. -/
def endsWith (p s : GoStr) : Bool := startsWith p.reverse s.reverse

def natDecimalAux : Nat → Nat → List Char → List Char
  | 0, _, acc => acc
  | fuel + 1, n, acc =>
    let acc := Char.ofNat (48 + n % 10) :: acc
    if n < 10 then acc else natDecimalAux fuel (n / 10) acc

/-- Decimal rendering of a natural number. -/
def natDecimal (n : Nat) : List Char := natDecimalAux (n + 1) n []

/-- Decimal rendering of an integer, modelling Go `strconv.FormatInt(_, 10)`. -/
def intDecimal : Int → List Char
  | .ofNat n => natDecimal n
  | .negSucc n => '-' :: natDecimal (n + 1)

/-- Truncation toward zero, modelling Go's `int64(t)` conversion of a
float64 value (exactly representable values are modelled as rationals). -/
def truncRat (q : Rat) : Int := Int.tdiv q.num (Int.ofNat q.den)

/-- JSON documents as decoded by `encoding/json` into `any`: numbers become
float64 (modelled as exactly-representable rationals), objects become
`map[string]any` (modelled as association lists; all inputs used in the
theorems have distinct keys, matching Go map semantics). -/
inductive Json where
  | null
  | bool (b : Bool)
  | num (q : Rat)
  | str (s : GoStr)
  | arr (xs : List Json)
  | obj (kvs : List (GoStr × Json))

abbrev JsonObj := List (GoStr × Json)

/-- Association lookup, modelling Go map indexing `m[k]`. -/
def lookupA : JsonObj → GoStr → Option Json
  | [], _ => none
  | (k, v) :: rest, key => if k = key then some v else lookupA rest key

def eraseAssoc (m : JsonObj) (key : GoStr) : JsonObj :=
  m.filter (fun kv => decide (kv.1 ≠ key))

/-- Association update, modelling Go map assignment `m[k] = v` (the position
of the entry is irrelevant: maps are unordered and marshalling sorts keys). -/
def updateAssoc (m : JsonObj) (key : GoStr) (v : Json) : JsonObj :=
  (key, v) :: eraseAssoc m key

def skipWs (cs : GoStr) : GoStr := cs.dropWhile isSpaceGo

def isDigit (c : Char) : Bool := '0' ≤ c && c ≤ '9'

def digitsToNat (ds : List Char) : Nat :=
  ds.foldl (fun acc c => acc * 10 + (c.toNat - 48)) 0

/-- Fuel-indexed recursive-descent JSON parser, modelling the subset of
`encoding/json` exercised by the backend payloads of this repository:
objects, arrays, plain strings (no escape sequences), integer numbers and
the literals true/false/null.  The fuel bounds nesting depth only. -/
def parseStringBody : GoStr → Option (GoStr × GoStr)
  | [] => none
  | c :: cs =>
    if c = '"' then some ([], cs)
    else if c = '\\' then none
    else match parseStringBody cs with
      | some (s, rest) => some (c :: s, rest)
      | none => none

mutual

def parseVal : Nat → GoStr → Option (Json × GoStr)
  | 0, _ => none
  | fuel + 1, cs =>
    match skipWs cs with
    | [] => none
    | c :: cs' =>
      if c = '{' then
        match skipWs cs' with
        | '}' :: rest => some (Json.obj [], rest)
        | cs'' => parseMembers fuel cs'' []
      else if c = '[' then
        match skipWs cs' with
        | ']' :: rest => some (Json.arr [], rest)
        | cs'' => parseElems fuel cs'' []
      else if c = '"' then
        match parseStringBody cs' with
        | some (s, rest) => some (Json.str s, rest)
        | none => none
      else if c = 't' then
        if startsWith ("rue".data) cs' then some (Json.bool true, cs'.drop 3) else none
      else if c = 'f' then
        if startsWith ("alse".data) cs' then some (Json.bool false, cs'.drop 4) else none
      else if c = 'n' then
        if startsWith ("ull".data) cs' then some (Json.null, cs'.drop 3) else none
      else if c = '-' then
        match cs'.span isDigit with
        | ([], _) => none
        | (ds, rest) => some (Json.num (-(digitsToNat ds : Int) : Int), rest)
      else if isDigit c then
        match (c :: cs').span isDigit with
        | (ds, rest) => some (Json.num ((digitsToNat ds : Int) : Rat), rest)
      else none

def parseMembers : Nat → GoStr → JsonObj → Option (Json × GoStr)
  | 0, _, _ => none
  | fuel + 1, cs, acc =>
    match skipWs cs with
    | '"' :: cs' =>
      match parseStringBody cs' with
      | some (k, rest) =>
        match skipWs rest with
        | ':' :: rest' =>
          match parseVal fuel rest' with
          | some (v, rest'') =>
            match skipWs rest'' with
            | ',' :: more => parseMembers fuel more (acc ++ [(k, v)])
            | '}' :: more => some (Json.obj (acc ++ [(k, v)]), more)
            | _ => none
          | none => none
        | _ => none
      | none => none
    | _ => none

def parseElems : Nat → GoStr → List Json → Option (Json × GoStr)
  | 0, _, _ => none
  | fuel + 1, cs, acc =>
    match parseVal fuel cs with
    | some (v, rest) =>
      match skipWs rest with
      | ',' :: more => parseElems fuel more (acc ++ [v])
      | ']' :: more => some (Json.arr (acc ++ [v]), more)
      | _ => none
    | none => none

end

/-- Whole-document parse, modelling `json.Unmarshal` into `any`:
the document must be a single JSON value followed by whitespace only. -/
def parseJson (s : GoStr) : Option Json :=
  match parseVal (s.length + 1) s with
  | some (j, rest) => if (skipWs rest).isEmpty then some j else none
  | none => none

def lexLtChar (a b : Char) : Bool := a.toNat < b.toNat

def lexLt : GoStr → GoStr → Bool
  | [], [] => false
  | [], _ :: _ => true
  | _ :: _, [] => false
  | a :: as, b :: bs => lexLtChar a b || (a == b && lexLt as bs)

def insertByKey (kv : GoStr × Json) : JsonObj → JsonObj
  | [] => [kv]
  | hd :: tl => if lexLt kv.1 hd.1 then kv :: hd :: tl else hd :: insertByKey kv tl

/-- Sort object members by key, as Go's `json.Marshal` does for maps. -/
def sortByKey : JsonObj → JsonObj
  | [] => []
  | kv :: rest => insertByKey kv (sortByKey rest)

def commaJoin : List GoStr → GoStr
  | [] => []
  | [x] => x
  | x :: y :: rest => x ++ [','] ++ commaJoin (y :: rest)

/-- Fuel-indexed serializer modelling `json.Marshal`: compact output, map
keys sorted byte-wise.  Strings are emitted without escaping and numbers
as integers, which is exact for every value marshalled in this
development.  The fuel bounds nesting depth only. -/
def serializeVal : Nat → Json → GoStr
  | 0, _ => []
  | fuel + 1, j =>
    match j with
    | .null => "null".data
    | .bool true => "true".data
    | .bool false => "false".data
    | .num q => if q.den = 1 then intDecimal q.num
                else intDecimal q.num ++ ['/'] ++ natDecimal q.den
    | .str s => '"' :: s ++ ['"']
    | .arr xs => '[' :: commaJoin (xs.map (fun x => serializeVal fuel x)) ++ [']']
    | .obj kvs =>
      Char.ofNat 123 ::
        commaJoin ((sortByKey kvs).map
          (fun kv => '"' :: kv.1 ++ ['"', ':'] ++ serializeVal fuel kv.2))
        ++ [Char.ofNat 125]

/-- `json.Marshal` at the value level (depth-bounded; every value in this
development has depth well under the bound). -/
def marshal (j : Json) : GoStr := serializeVal 100 j

def toUpperChar (c : Char) : Char :=
  if 'a' ≤ c ∧ c ≤ 'z' then Char.ofNat (c.toNat - 32) else c

/-- Go `strings.ToUpper` (ASCII model). -/
def toUpperStr (s : GoStr) : GoStr := s.map toUpperChar

/-- The string-value filter of the `str` extractor: non-blank after
trimming, and not the literal "-" or "null". -/
def strGood (t : GoStr) : Bool :=
  !(trimSpace t).isEmpty && !(t == ("-".data)) && !(t == ("null".data))

/-- `str` field extractor of internal/fhir: first candidate key whose value
is a usable string wins; blank/"-"/"null" strings and non-string,
non-number values fall through to the next key; float64 values are
converted with `strconv.FormatInt(int64(t), 10)`. -/
def str (m : JsonObj) : List GoStr → GoStr
  | [] => []
  | k :: rest =>
    match lookupA m k with
    | some (.str t) => if strGood t then t else str m rest
    | some (.num q) => intDecimal (truncRat q)
    | _ => str m rest

/-- `boolv` of internal/fhir: bool values returned directly; boolean-like
strings decoded; float64 compared against zero; anything else falls
through to the next key. -/
def boolv (m : JsonObj) : List GoStr → Option Bool
  | [] => none
  | k :: rest =>
    match lookupA m k with
    | some (.bool b) => some b
    | some (.str t) =>
      let lower := toLowerStr (trimSpace t)
      if lower == ("true".data) || lower == ("1".data) || lower == ("yes".data) then some true
      else if lower == ("false".data) || lower == ("0".data) || lower == ("no".data) then some false
      else boolv m rest
    | some (.num q) => some (decide (q ≠ 0))
    | _ => boolv m rest

/-- `filterNonEmpty` of internal/fhir. -/
def filterNonEmpty : List GoStr → List GoStr
  | [] => []
  | v :: rest =>
    let v := trimSpace v
    if !v.isEmpty && !(v == ("-".data)) && !(v == ("null".data)) then v :: filterNonEmpty rest
    else filterNonEmpty rest

/-- `normalizeGender` of internal/fhir. -/
def normalizeGender (g0 : GoStr) : GoStr :=
  let g := toLowerStr (trimSpace g0)
  if g == ("m".data) || g == ("male".data) || g == ("1".data) then ("male".data)
  else if g == ("f".data) || g == ("female".data) || g == ("2".data) then ("female".data)
  else if g == ("other".data) || g == ("o".data) || g == ("3".data) then ("other".data)
  else if g == ("unknown".data) || g == ("u".data) || g == ("0".data) then ("unknown".data)
  else if startsWith ("m".data) g then ("male".data)
  else if startsWith ("f".data) g then ("female".data)
  else ("unknown".data)

/-- First index of 'T' or ' ' in a string, modelling
`strings.IndexAny(s, "T ")` (`none` stands for Go's -1). -/
def findSep (s : GoStr) : Option Nat := s.findIdx? (fun c => c == 'T' || c == ' ')

/-- `normalizeDate` of internal/fhir. -/
def normalizeDate (s0 : GoStr) : GoStr :=
  let s := trimSpace s0
  let s := match findSep s with
           | some i => if 0 < i then s.take i else s
           | none => s
  if 10 ≤ s.length then s.take 10 else s

/-- `guessImageContentType` of internal/fhir (empty list stands for ""). -/
def guessImageContentType (u : GoStr) : GoStr :=
  let lower := toLowerStr u
  if endsWith (".jpg".data) lower || endsWith (".jpeg".data) lower then ("image/jpeg".data)
  else if endsWith (".png".data) lower then ("image/png".data)
  else if endsWith (".gif".data) lower then ("image/gif".data)
  else if endsWith (".webp".data) lower then ("image/webp".data)
  else []

def isStr : Json → Bool
  | .str _ => true
  | _ => false

def objAll (p : GoStr × Json → Bool) : Json → Bool
  | .obj kvs => kvs.all p
  | _ => false

def nonEmptyArrAll (p : Json → Bool) : Json → Bool
  | .arr xs => !xs.isEmpty && xs.all p
  | _ => false

def genderCodeOk (g : GoStr) : Bool :=
  g == ("male".data) || g == ("female".data) || g == ("other".data) || g == ("unknown".data)

def digitsOnly (s : GoStr) : Bool := s.all isDigit

/-- FHIR `date` lexical shapes YYYY, YYYY-MM, YYYY-MM-DD. -/
def dateShapeOk (s : GoStr) : Bool :=
  (s.length == 4 && digitsOnly s)
  || (s.length == 7 && digitsOnly (s.take 4) && s.get? 4 == some '-' && digitsOnly (s.drop 5))
  || (s.length == 10 && digitsOnly (s.take 4) && s.get? 4 == some '-'
      && digitsOnly ((s.drop 5).take 2) && s.get? 7 == some '-' && digitsOnly (s.drop 8))

def humanNameMemberOk : GoStr × Json → Bool
  | (k, v) =>
    if k == ("family".data) || k == ("text".data) then isStr v
    else if k == ("given".data) then nonEmptyArrAll isStr v
    else false

def identifierMemberOk : GoStr × Json → Bool
  | (k, v) => (k == ("system".data) || k == ("value".data)) && isStr v

def telecomMemberOk : GoStr × Json → Bool
  | (k, v) => (k == ("system".data) || k == ("value".data)) && isStr v

def codeableTextMemberOk : GoStr × Json → Bool
  | (k, v) => k == ("text".data) && isStr v

def communicationMemberOk : GoStr × Json → Bool
  | (k, v) => k == ("language".data) && objAll codeableTextMemberOk v

def addressMemberOk : GoStr × Json → Bool
  | (k, v) =>
    if k == ("line".data) then nonEmptyArrAll isStr v
    else if k == ("city".data) || k == ("state".data) || k == ("postalCode".data)
            || k == ("country".data) then isStr v
    else false

def referenceMemberOk : GoStr × Json → Bool
  | (k, v) => k == ("reference".data) && isStr v

def linkMemberOk : GoStr × Json → Bool
  | (k, v) =>
    if k == ("other".data) then objAll referenceMemberOk v
    else if k == ("type".data) then isStr v
    else false

def contactMemberOk : GoStr × Json → Bool
  | (k, v) =>
    if k == ("name".data) then objAll humanNameMemberOk v
    else if k == ("relationship".data) then nonEmptyArrAll (objAll codeableTextMemberOk) v
    else if k == ("telecom".data) then nonEmptyArrAll (objAll telecomMemberOk) v
    else false

def photoMemberOk : GoStr × Json → Bool
  | (k, v) =>
    (k == ("url".data) || k == ("data".data) || k == ("contentType".data)
     || k == ("title".data) || k == ("creation".data)) && isStr v

def patientMemberOk : GoStr × Json → Bool
  | (k, v) =>
    if k == ("resourceType".data) then
      (match v with
       | .str t => t == ("Patient".data)
       | _ => false)
    else if k == ("id".data) then isStr v
    else if k == ("active".data) then
      (match v with
       | .bool _ => true
       | _ => false)
    else if k == ("gender".data) then
      (match v with
       | .str g => genderCodeOk g
       | _ => false)
    else if k == ("birthDate".data) then
      (match v with
       | .str d => dateShapeOk d
       | _ => false)
    else if k == ("name".data) then nonEmptyArrAll (objAll humanNameMemberOk) v
    else if k == ("identifier".data) then nonEmptyArrAll (objAll identifierMemberOk) v
    else if k == ("telecom".data) then nonEmptyArrAll (objAll telecomMemberOk) v
    else if k == ("maritalStatus".data) then objAll codeableTextMemberOk v
    else if k == ("communication".data) then nonEmptyArrAll (objAll communicationMemberOk) v
    else if k == ("deceasedBoolean".data) then
      (match v with
       | .bool _ => true
       | _ => false)
    else if k == ("address".data) then nonEmptyArrAll (objAll addressMemberOk) v
    else if k == ("managingOrganization".data) then objAll referenceMemberOk v
    else if k == ("generalPractitioner".data) then nonEmptyArrAll (objAll referenceMemberOk) v
    else if k == ("link".data) then nonEmptyArrAll (objAll linkMemberOk) v
    else if k == ("contact".data) then nonEmptyArrAll (objAll contactMemberOk) v
    else if k == ("photo".data) then nonEmptyArrAll (objAll photoMemberOk) v
    else false

/-- Modelled from the spec: the external strict FHIR R4 decoder
(google/fhir `jsonformat.Unmarshaller`), which is a third-party dependency
absent from src/.  Per §4.3 the decoder is strict: unknown resource types,
unknown fields and invalid enumerated codes (e.g. an invalid `gender`) are
rejected, and resource-type dispatch is by exact (case-sensitive) name.
The model covers Patient resources — the only resource type that any
claim requires the decoder to accept — with the field checks above;
other resource types are conservatively rejected. -/
def r4UnmarshalOk : Json → Bool
  | .obj kvs =>
    (match lookupA kvs ("resourceType".data) with
     | some (.str t) => t == ("Patient".data)
     | _ => false)
    && kvs.all patientMemberOk
  | _ => false

/-- `fhir.LooksLikePatient` of internal/beclient/client.go: true iff the
jsonformat unmarshal succeeds — it performs no resourceType string
comparison of its own. -/
def LooksLikePatient (j : Json) : Bool := r4UnmarshalOk j

/-- `fhir.ValidatePatientR4`: true iff the jsonformat unmarshal succeeds
(`nil` error). -/
def ValidatePatientR4 (j : Json) : Bool := r4UnmarshalOk j

/-- The envelope-unwrapping step of `TransformBackendToFHIRPatient`
(part_001 lines 22-43): the `details` check and the `data` check are two
consecutive `if` statements on the same top-level map, each overwriting
`payload` when it applies. -/
def unwrapRecord (anyMap : JsonObj) : JsonObj :=
  let payload := anyMap
  let payload :=
    match lookupA anyMap ("details".data) with
    | some (.obj m) => m
    | _ => payload
  let payload :=
    match lookupA anyMap ("data".data) with
    | some (.str s) =>
      (match parseJson s with
       | some (.obj inner) => inner
       | _ => payload)
    | some (.obj v) => v
    | _ => payload
  payload

def guardField (k : GoStr) (b : Bool) (v : Json) : JsonObj := if b then [(k, v)] else []

def listField (k : GoStr) (l : List Json) : JsonObj :=
  if l.isEmpty then [] else [(k, Json.arr l)]

def objListField (k : GoStr) (fields : JsonObj) : JsonObj :=
  if fields.isEmpty then [] else [(k, Json.arr [Json.obj fields])]

/-! The best-effort mapping step of `TransformBackendToFHIRPatient`
(part_001 lines 52-231), assembling the FHIR Patient from the unwrapped
backend record.  Each `...Chunk` definition models one conditional map
insertion of the Go source; `buildPatient` concatenates them in program
order (Go maps are unordered, so only the key/value associations matter). -/

/-- `active` := fileStatus compared case-insensitively to "active". -/
def activeChunk (payload : JsonObj) : JsonObj :=
  let fileStatus := str payload [("fileStatus".data)]
  guardField ("active".data) (!fileStatus.isEmpty)
    (Json.bool (equalFold fileStatus ("active".data)))

/-- The up-to-three identifier entries: MRN-like, UPI-like, (idType, idNumber). -/
def identifiersOf (payload : JsonObj) : List Json :=
  let mrn := str payload [("legacyMRN".data), ("medicalRecordNumber".data), ("patientNumber".data)]
  let upi := str payload [("upi".data), ("patientId".data), ("id".data)]
  let idType := str payload [("idType".data)]
  let idNum := str payload [("idNumber".data)]
  (if !mrn.isEmpty then
    [Json.obj [(("system".data), Json.str ("urn:mrn".data)), (("value".data), Json.str mrn)]]
   else [])
  ++ (if !upi.isEmpty then
    [Json.obj [(("system".data), Json.str ("urn:upi".data)), (("value".data), Json.str upi)]]
   else [])
  ++ (if !idType.isEmpty && !idNum.isEmpty then
    [Json.obj [(("system".data), Json.str (("urn:".data) ++ idType)),
               (("value".data), Json.str idNum)]]
   else [])

def identifierChunk (payload : JsonObj) : JsonObj :=
  listField ("identifier".data) (identifiersOf payload)

def nameFieldsOf (payload : JsonObj) : JsonObj :=
  let firstN := str payload [("firstName".data), ("givenName".data)]
  let middleN := str payload [("middleName".data), ("middle".data)]
  let thirdN := str payload [("thirdName".data)]
  let lastN := str payload [("lastName".data), ("familyName".data)]
  let fullN := str payload [("fullName".data)]
  let givens := filterNonEmpty [firstN, middleN, thirdN]
  (if !lastN.isEmpty then [(("family".data), Json.str lastN)] else [])
  ++ (if !givens.isEmpty then [(("given".data), Json.arr (givens.map Json.str))] else [])
  ++ (if !fullN.isEmpty then [(("text".data), Json.str fullN)] else [])

def nameChunk (payload : JsonObj) : JsonObj :=
  objListField ("name".data) (nameFieldsOf payload)

/-- `gender`: explicit text field preferred over the coded field. -/
def genderChunk (payload : JsonObj) : JsonObj :=
  let gtxt := str payload [("gender_text".data)]
  let gcode := str payload [("gender".data)]
  if !gtxt.isEmpty then [(("gender".data), Json.str (normalizeGender gtxt))]
  else guardField ("gender".data) (!gcode.isEmpty) (Json.str (normalizeGender gcode))

def birthChunk (payload : JsonObj) : JsonObj :=
  let dob := str payload [("dateOfBirth".data)]
  guardField ("birthDate".data) (!dob.isEmpty) (Json.str (normalizeDate dob))

def maritalChunk (payload : JsonObj) : JsonObj :=
  let ms := str payload [("maritialStatus".data), ("maritalStatus".data)]
  guardField ("maritalStatus".data) (!ms.isEmpty) (Json.obj [(("text".data), Json.str ms)])

def commChunk (payload : JsonObj) : JsonObj :=
  let lang := str payload [("language".data)]
  guardField ("communication".data) (!lang.isEmpty)
    (Json.arr [Json.obj [(("language".data), Json.obj [(("text".data), Json.str lang)])]])

def deceasedChunk (payload : JsonObj) : JsonObj :=
  match boolv payload [("isDeceased".data)] with
  | some db => [(("deceasedBoolean".data), Json.bool db)]
  | none => []

def telecomOf (payload : JsonObj) : List Json :=
  let ph := str payload [("mobileNumber".data), ("phoneNumber".data)]
  let em := str payload [("email".data)]
  (if !ph.isEmpty then
    [Json.obj [(("system".data), Json.str ("phone".data)), (("value".data), Json.str ph)]]
   else [])
  ++ (if !em.isEmpty then
    [Json.obj [(("system".data), Json.str ("email".data)), (("value".data), Json.str em)]]
   else [])

def telecomChunk (payload : JsonObj) : JsonObj :=
  listField ("telecom".data) (telecomOf payload)

def addrFieldsOf (payload : JsonObj) : JsonObj :=
  let lns := filterNonEmpty [str payload [("street".data)]]
  let city := str payload [("city".data)]
  let state := str payload [("area".data)]
  let pc := str payload [("zipCode".data)]
  let country := str payload [("country".data)]
  (if !lns.isEmpty then [(("line".data), Json.arr (lns.map Json.str))] else [])
  ++ (if !city.isEmpty then [(("city".data), Json.str city)] else [])
  ++ (if !state.isEmpty then [(("state".data), Json.str state)] else [])
  ++ (if !pc.isEmpty then [(("postalCode".data), Json.str pc)] else [])
  ++ (if !country.isEmpty then [(("country".data), Json.str (toUpperStr country))] else [])

def addressChunk (payload : JsonObj) : JsonObj :=
  objListField ("address".data) (addrFieldsOf payload)

def managingOrgChunk (payload : JsonObj) : JsonObj :=
  let orgID := str payload [("registeredAt".data), ("hospitalId".data)]
  guardField ("managingOrganization".data) (!orgID.isEmpty)
    (Json.obj [(("reference".data), Json.str (("Organization/".data) ++ orgID))])

def gpOf (payload : JsonObj) : List Json :=
  let phys := str payload [("primaryHealthcarePhysician".data)]
  let center := str payload [("primaryHealthcareCenter".data)]
  (if !phys.isEmpty then
    [Json.obj [(("reference".data), Json.str (("Practitioner/".data) ++ phys))]]
   else [])
  ++ (if !center.isEmpty then
    [Json.obj [(("reference".data), Json.str (("Organization/".data) ++ center))]]
   else [])

def gpChunk (payload : JsonObj) : JsonObj :=
  listField ("generalPractitioner".data) (gpOf payload)

def linkChunk (payload : JsonObj) : JsonObj :=
  let parent := str payload [("linkedParentUpi".data)]
  guardField ("link".data) (!parent.isEmpty)
    (Json.arr [Json.obj
      [(("other".data), Json.obj [(("reference".data), Json.str (("Patient/".data) ++ parent))]),
       (("type".data), Json.str ("seealso".data))]])

def contactNameOf (payload : JsonObj) : JsonObj :=
  let ecText := str payload [("emergencyContactName".data)]
  let ecFirst := str payload [("emergencyContactFirstName".data), ("emergencyContactFirstNameLocal".data)]
  let ecLast := str payload [("emergencyContactLastName".data), ("emergencyContactLastNameLocal".data)]
  let ecGivens := filterNonEmpty [ecFirst]
  (if !ecText.isEmpty then [(("text".data), Json.str ecText)] else [])
  ++ (if !ecGivens.isEmpty then [(("given".data), Json.arr (ecGivens.map Json.str))] else [])
  ++ (if !ecLast.isEmpty then [(("family".data), Json.str ecLast)] else [])

def contactTelecomOf (payload : JsonObj) : List Json :=
  let ecPh := str payload [("emergencyContactPhoneNumber".data)]
  let ecEm := str payload [("emergencyContactEmail".data)]
  (if !ecPh.isEmpty then
    [Json.obj [(("system".data), Json.str ("phone".data)), (("value".data), Json.str ecPh)]]
   else [])
  ++ (if !ecEm.isEmpty then
    [Json.obj [(("system".data), Json.str ("email".data)), (("value".data), Json.str ecEm)]]
   else [])

def contactFieldsOf (payload : JsonObj) : JsonObj :=
  let ecName := contactNameOf payload
  let ecTel := contactTelecomOf payload
  let relText := str payload [("emergencyContactRelationship".data)]
  (if !ecName.isEmpty then [(("name".data), Json.obj ecName)] else [])
  ++ (if !relText.isEmpty then
    [(("relationship".data), Json.arr [Json.obj [(("text".data), Json.str relText)]])]
   else [])
  ++ (if !ecTel.isEmpty then [(("telecom".data), Json.arr ecTel)] else [])

def contactsOf (payload : JsonObj) : List Json :=
  if (contactFieldsOf payload).isEmpty then [] else [Json.obj (contactFieldsOf payload)]

def contactChunk (payload : JsonObj) : JsonObj :=
  listField ("contact".data) (contactsOf payload)

/-- The URL-based attachment (part_001 lines 208-219). -/
def urlAttachmentOf (payload : JsonObj) (u : GoStr) : JsonObj :=
  let ctExplicit := str payload [("photoContentType".data), ("imageContentType".data), ("contentType".data)]
  let title := str payload [("photoTitle".data)]
  let created := str payload [("photoCreatedOn".data), ("photoCreation".data), ("createdOn".data), ("modifiedOn".data)]
  [(("url".data), Json.str u)]
  ++ (if !ctExplicit.isEmpty then [(("contentType".data), Json.str ctExplicit)]
      else
        (let guessed := guessImageContentType u
         if !guessed.isEmpty then [(("contentType".data), Json.str guessed)] else []))
  ++ (if !title.isEmpty then [(("title".data), Json.str title)] else [])
  ++ (if !created.isEmpty then [(("creation".data), Json.str created)] else [])

/-- The base64-data attachment (part_001 lines 220-230). -/
def b64AttachmentOf (payload : JsonObj) (b64 : GoStr) : JsonObj :=
  let ctExplicit := str payload [("photoContentType".data), ("imageContentType".data), ("contentType".data)]
  let title := str payload [("photoTitle".data)]
  let created := str payload [("photoCreatedOn".data), ("photoCreation".data), ("createdOn".data), ("modifiedOn".data)]
  [(("data".data), Json.str b64)]
  ++ (if !ctExplicit.isEmpty then [(("contentType".data), Json.str ctExplicit)] else [])
  ++ (if !title.isEmpty then [(("title".data), Json.str title)] else [])
  ++ (if !created.isEmpty then [(("creation".data), Json.str created)] else [])

def attachmentsOf (payload : JsonObj) : List Json :=
  let u := str payload [("photoUrl".data), ("avatarUrl".data), ("imageUrl".data), ("pictureUrl".data)]
  let b64 := str payload [("photoBase64".data), ("avatarBase64".data), ("imageBase64".data), ("imageData".data), ("photo".data)]
  if !u.isEmpty then [Json.obj (urlAttachmentOf payload u)]
  else if !b64.isEmpty then [Json.obj (b64AttachmentOf payload b64)]
  else []

def photoChunk (payload : JsonObj) : JsonObj :=
  listField ("photo".data) (attachmentsOf payload)

/-- The assembled FHIR Patient map (part_001 lines 52-231). -/
def buildPatient (payload : JsonObj) (pathID : GoStr) : JsonObj :=
  [(("resourceType".data), Json.str ("Patient".data)), (("id".data), Json.str pathID)]
  ++ (activeChunk payload ++ (identifierChunk payload ++ (nameChunk payload
  ++ (genderChunk payload ++ (birthChunk payload ++ (maritalChunk payload
  ++ (commChunk payload ++ (deceasedChunk payload ++ (telecomChunk payload
  ++ (addressChunk payload ++ (managingOrgChunk payload ++ (gpChunk payload
  ++ (linkChunk payload ++ (contactChunk payload ++ photoChunk payload))))))))))))))

/-- `normalizeViaGoogleFHIR` of internal/fhir: validate the generated
Patient through the external decoder, returning the input unchanged when
valid. -/
def normalizeViaGoogleFHIR (j : Json) : Except GoStr Json :=
  if r4UnmarshalOk j then .ok j else .error ("unmarshal error".data)

/-- `TransformBackendToFHIRPatient` of internal/fhir (part_001).  The byte
payload is modelled by its decoded Json value; a non-object top level makes
the `json.Unmarshal` into a map fail. -/
def TransformBackendToFHIRPatient (beJSON : Json) (pathID : GoStr) : Except GoStr Json :=
  if LooksLikePatient beJSON then .ok beJSON
  else
    match beJSON with
    | .obj anyMap =>
      let payload := unwrapRecord anyMap
      if LooksLikePatient (.obj payload) then .ok (.obj payload)
      else
        match normalizeViaGoogleFHIR (.obj (buildPatient payload pathID)) with
        | .ok canonical => .ok canonical
        | .error e => .error (("google/fhir normalization failed: ".data) ++ e)
    | _ => .error ("json: cannot unmarshal into map".data)

/-- `looksLikePatient` of main.go (and `looksLikePatientQuick` of the api
package): unmarshal into a struct holding only `resourceType` and compare
with `strings.EqualFold`.  Malformed bodies, non-object bodies and
non-string `resourceType` values make the unmarshal fail (false); an
absent field leaves the zero value "", which also compares false. -/
def looksLikePatient (body : Option Json) : Bool :=
  match body with
  | some (.obj m) =>
    (match lookupA m ("resourceType".data) with
     | some (.str t) => equalFold t ("Patient".data)
     | _ => false)
  | _ => false

/-- `validatePatientR4` of main.go: ok iff the jsonformat unmarshal
succeeds (it never produces an OperationOutcome, only an error). -/
def validatePatientR4 (body : Option Json) : Bool :=
  match body with
  | some j => r4UnmarshalOk j
  | none => false

structure GoResponse where
  status : Nat
  location : Option GoStr
  body : Json

/-- `writeSimpleOutcome` of main.go: a single-issue OperationOutcome with
severity "error" and code "invalid" on every path that uses it. -/
def writeSimpleOutcome (status : Nat) (diagnostics : GoStr) : GoResponse :=
  { status := status, location := none,
    body := Json.obj
      [(("resourceType".data), Json.str ("OperationOutcome".data)),
       (("issue".data), Json.arr
         [Json.obj
           [(("severity".data), Json.str ("error".data)),
            (("code".data), Json.str ("invalid".data)),
            (("diagnostics".data), Json.str diagnostics)]])] }

/-- The shared mutable state of main.go: `patientStore` (stored bodies kept
at the value level; the stored bytes are `marshal` of the value) and the
`nextID` counter. -/
structure ServerState where
  patientStore : JsonObj
  nextID : Int

def initialState : ServerState := { patientStore := [], nextID := 0 }

/-- `handleCreatePatient` of main.go on a POST with the given decoded body
(`none` for a body that is not well-formed JSON).  The diagnostics of the
validation-error path is the library's error text, modelled by a fixed
placeholder (no claim inspects it). -/
def handleCreatePatient (body : Option Json) (s : ServerState) : ServerState × GoResponse :=
  if !looksLikePatient body then
    (s, writeSimpleOutcome 400 ("invalid resourceType (expected Patient)".data))
  else if !validatePatientR4 body then
    (s, writeSimpleOutcome 400 ("validation error".data))
  else
    match body with
    | some (.obj m) =>
      let id := intDecimal (s.nextID + 1)
      let resource := updateAssoc m ("id".data) (Json.str id)
      ({ patientStore := updateAssoc s.patientStore id (Json.obj resource),
         nextID := s.nextID + 1 },
       { status := 201, location := some (("/fhir/Patient/".data) ++ id),
         body := Json.obj resource })
    | _ => (s, writeSimpleOutcome 400 ("invalid JSON body".data))

/-- The GET branch of `handlePatientByID` of main.go (first variant, which
serves from the in-memory store). -/
def handleGetPatient (id : GoStr) (s : ServerState) : GoResponse :=
  match lookupA s.patientStore id with
  | some v => { status := 200, location := none, body := v }
  | none => writeSimpleOutcome 404 ("Patient not found".data)

/-- The PUT branch of `handlePatientByID` of main.go: validate, require the
id to exist, overwrite the body's id with the path id, store. -/
def handlePutPatient (id : GoStr) (body : Option Json) (s : ServerState) :
    ServerState × GoResponse :=
  if !looksLikePatient body then
    (s, writeSimpleOutcome 400 ("invalid resourceType (expected Patient)".data))
  else if !validatePatientR4 body then
    (s, writeSimpleOutcome 400 ("validation error".data))
  else
    match lookupA s.patientStore id with
    | none => (s, writeSimpleOutcome 404 ("Patient not found".data))
    | some _ =>
      match body with
      | some (.obj m) =>
        let resource := updateAssoc m ("id".data) (Json.str id)
        ({ s with patientStore := updateAssoc s.patientStore id (Json.obj resource) },
         { status := 200, location := none, body := Json.obj resource })
      | _ => (s, writeSimpleOutcome 400 ("invalid JSON body".data))

/-- The DELETE branch of `handlePatientByID` of main.go. -/
def handleDeletePatient (id : GoStr) (s : ServerState) : ServerState × GoResponse :=
  match lookupA s.patientStore id with
  | none => (s, writeSimpleOutcome 404 ("Patient not found".data))
  | some _ =>
    ({ s with patientStore := eraseAssoc s.patientStore id },
     { status := 204, location := none, body := Json.null })

/-- The store states reachable from process start through the write
operations of main.go / store.Mem (GET does not modify state). -/
inductive Reachable : ServerState → Prop where
  | init : Reachable initialState
  | create (b : Option Json) (s : ServerState) :
      Reachable s → Reachable (handleCreatePatient b s).1
  | put (id : GoStr) (b : Option Json) (s : ServerState) :
      Reachable s → Reachable (handlePutPatient id b s).1
  | del (id : GoStr) (s : ServerState) :
      Reachable s → Reachable (handleDeletePatient id s).1

/-- Store-key/id agreement: every stored value is an object whose "id"
member is the store key. -/
def StoreOk (s : ServerState) : Prop :=
  ∀ k v, lookupA s.patientStore k = some v →
    ∃ m, v = Json.obj m ∧ lookupA m ("id".data) = some (Json.str k)

inductive Severity where
  | information
  | warning
  | error
  | fatal
deriving DecidableEq

structure Issue where
  severity : Severity
  code : GoStr
  text : GoStr
deriving DecidableEq

/-- Modelled from the spec: the result classification of the external HAPI
strict JSON parser used by `PatientValidationService.processCreatePatient`
(FhirConfig.java part 3) — parsing either throws a DataFormatException
whose cause is a JsonProcessingException (malformed JSON), throws a
DataFormatException for a semantic/datatype-level failure such as an
invalid enumerated code, throws some other exception, returns a resource
of a type other than Patient, or returns a Patient. -/
inductive ParseOutcome where
  | malformedJson (msg : GoStr)
  | dataFormatInvalid (msg : GoStr)
  | wrongType (actualType : GoStr)
  | otherFailure (msg : GoStr)
  | parsed (patient : Json)

/-- Modelled from the spec: the run of the external HAPI validator —
either it throws (validator unavailable) or it completes with a list of
issues; `ValidationResult.isSuccessful` holds iff no issue has severity
error or fatal. -/
inductive ValidatorRun where
  | unavailable (msg : GoStr)
  | completed (issues : List Issue)

def hasBlocking (issues : List Issue) : Bool :=
  issues.any (fun i => i.severity == Severity.error || i.severity == Severity.fatal)

def isSuccessful (issues : List Issue) : Bool := !hasBlocking issues

/-- `ValidationResult.toOperationOutcome`: one issue per validation
message; an information issue when there are none. -/
def toOperationOutcome (issues : List Issue) : List Issue :=
  if issues.isEmpty then
    [⟨Severity.information, ("informational".data),
      ("No issues detected during validation".data)⟩]
  else issues

def mkIssue (sev : Severity) (c t : GoStr) : Issue :=
  { severity := sev, code := c, text := t }

structure JavaResponse where
  status : Nat
  bodyIssues : Option (List Issue)
  bodyPatient : Option Json
  headerOutcome : Option (List Issue)

/-- `PatientValidationService.processCreatePatient` (FhirConfig.java
part 3), as a function of the strict parse outcome and the validator run:
wrong resource type / malformed JSON / other parse exception → 400 with a
fatal/exception issue; DataFormatException that is not malformed JSON →
422 with an error/invalid issue (also in the X-Operation-Outcome header);
validator unavailable → 201 with a warning-only header; validator
completed → 201 on success, 422 with the validator's outcome otherwise. -/
def processCreatePatient (p : ParseOutcome) (v : ValidatorRun) : JavaResponse :=
  match p with
  | .wrongType t =>
    { status := 400,
      bodyIssues := some [mkIssue Severity.fatal ("exception".data)
        (("Expected a Patient resource but received: ".data) ++ t)],
      bodyPatient := none, headerOutcome := none }
  | .malformedJson msg =>
    { status := 400,
      bodyIssues := some [mkIssue Severity.fatal ("exception".data)
        (("Malformed JSON: ".data) ++ msg)],
      bodyPatient := none, headerOutcome := none }
  | .dataFormatInvalid msg =>
    let oo := [mkIssue Severity.error ("invalid".data) msg]
    { status := 422, bodyIssues := some oo, bodyPatient := none, headerOutcome := some oo }
  | .otherFailure msg =>
    { status := 400,
      bodyIssues := some [mkIssue Severity.fatal ("exception".data)
        (("Failed to parse Patient: ".data) ++ msg)],
      bodyPatient := none, headerOutcome := none }
  | .parsed patient =>
    match v with
    | .unavailable msg =>
      let oo := [mkIssue Severity.warning ("informational".data)
        (("Validation skipped due to internal error: ".data) ++ msg)]
      { status := 201, bodyIssues := none, bodyPatient := some patient,
        headerOutcome := some oo }
    | .completed issues =>
      let outcome := toOperationOutcome issues
      if isSuccessful issues then
        { status := 201, bodyIssues := none, bodyPatient := some patient,
          headerOutcome := some outcome }
      else
        { status := 422, bodyIssues := some outcome, bodyPatient := none,
          headerOutcome := some outcome }

/-- C5's reading of `normalizeGender`, stated in the spec's own order of
cases over the trimmed, lower-cased input. -/
def normalizeGenderClaim (s : GoStr) : GoStr :=
  let g := toLowerStr (trimSpace s)
  if g = ("m".data) ∨ g = ("male".data) ∨ g = ("1".data) then ("male".data)
  else if g = ("f".data) ∨ g = ("female".data) ∨ g = ("2".data) then ("female".data)
  else if g = ("other".data) ∨ g = ("o".data) ∨ g = ("3".data) then ("other".data)
  else if g = ("unknown".data) ∨ g = ("u".data) ∨ g = ("0".data) then ("unknown".data)
  else if startsWith ("m".data) g = true then ("male".data)
  else if startsWith ("f".data) g = true then ("female".data)
  else ("unknown".data)

/-- The Patient collection fields named by C8. -/
def patientCollectionKeys : List GoStr :=
  [("identifier".data), ("name".data), ("telecom".data), ("address".data),
   ("generalPractitioner".data), ("link".data), ("contact".data),
   ("photo".data), ("communication".data)]

/-- A key is either absent from the object or bound to a non-empty array. -/
def chunkOkFor (ck : GoStr) (m : JsonObj) : Bool :=
  match lookupA m ck with
  | none => true
  | some (Json.arr xs) => !xs.isEmpty
  | some _ => false

/-- Every collection field of C8 that is present is a non-empty array. -/
def collectionsOk (m : JsonObj) : Bool :=
  patientCollectionKeys.all (fun ck => chunkOkFor ck m)

/-- C1's premise on the Java service: the request body is well-formed JSON
with resourceType Patient but fails semantic/datatype-level validation —
either the strict parse throws a non-malformed-JSON DataFormatException,
or parsing succeeds and the validator reports a blocking issue. -/
def SemanticFailure (p : ParseOutcome) (v : ValidatorRun) : Prop :=
  (∃ msg, p = ParseOutcome.dataFormatInvalid msg)
  ∨ (∃ patient issues, p = ParseOutcome.parsed patient
      ∧ v = ValidatorRun.completed issues ∧ hasBlocking issues = true)

/-- `isInsertionOf o b` holds iff `b` is `o` with one contiguous chunk
spliced in — the shape C9's "byte-identical except for the injected id
field" requires of the response bytes relative to the submitted bytes. -/
def isInsertionOf (o b : GoStr) : Bool :=
  o.length ≤ b.length &&
  (List.range (o.length + 1)).any (fun i =>
    b.take i == o.take i && b.drop (i + (b.length - o.length)) == o.drop i)

/-- C9's experiment on main.go: POST the given bytes against a fresh
server, follow the returned Location, and return the bytes of the GET
response. -/
def postThenGetBytes (o : GoStr) : Option GoStr :=
  match parseJson o with
  | none => none
  | some j =>
    let res := handleCreatePatient (some j) initialState
    match res.2.location with
    | some loc =>
      let id := loc.drop ("/fhir/Patient/".data).length
      let g := handleGetPatient id res.1
      if g.status == 200 then some (marshal g.body) else none
    | none => none

/-- Severity of the first issue of an OperationOutcome response body. -/
def firstIssueSeverity (resp : GoResponse) : Option GoStr :=
  match resp.body with
  | Json.obj m =>
    (match lookupA m ("issue".data) with
     | some (Json.arr (Json.obj i :: _)) =>
       (match lookupA i ("severity".data) with
        | some (Json.str s) => some s
        | _ => none)
     | _ => none)
  | _ => none

/-- Code of the first issue of an OperationOutcome response body. -/
def firstIssueCode (resp : GoResponse) : Option GoStr :=
  match resp.body with
  | Json.obj m =>
    (match lookupA m ("issue".data) with
     | some (Json.arr (Json.obj i :: _)) =>
       (match lookupA i ("code".data) with
        | some (Json.str s) => some s
        | _ => none)
     | _ => none)
  | _ => none

/-- An entry of the built Patient map is either keyed outside the
collection fields or holds a non-empty array. -/
def GoodEntry (kv : GoStr × Json) : Prop :=
  kv.1 ∉ patientCollectionKeys ∨ ∃ x xs, kv.2 = Json.arr (x :: xs)

/-- Request bytes of the spec's invalid-gender scenario. -/
def invalidGenderBytes : GoStr :=
  ("\x7b\"resourceType\":\"Patient\",\"active\":true,\"name\":[\x7b\"family\":\"Doe\",\"given\":[\"Jane\"]\x7d],\"gender\":\"not-a-valid-code\"\x7d".data)

/-- Request bytes of the spec's wrong-resource-type scenario. -/
def observationBytes : GoStr :=
  ("\x7b\"resourceType\":\"Observation\",\"status\":\"final\"\x7d".data)

/-- Submitted bytes of the round-trip counterexample: well-formed Patient
JSON whose members are not in alphabetical order. -/
def roundtripSubmitBytes : GoStr :=
  ("\x7b\"resourceType\":\"Patient\",\"active\":true\x7d".data)

theorem lookupA_head (k : GoStr) (v : Json) (rest : JsonObj) :
    lookupA ((k, v) :: rest) k = some v := by
  simp [lookupA]

theorem lookupA_cons_ne (k k' : GoStr) (v : Json) (rest : JsonObj) (h : k ≠ k') :
    lookupA ((k, v) :: rest) k' = lookupA rest k' := by
  simp [lookupA, h]

theorem lookupA_append (a b : JsonObj) (k : GoStr) :
    lookupA (a ++ b) k =
      (match lookupA a k with
       | some v => some v
       | none => lookupA b k) := by
  induction a with
  | nil => simp [lookupA]
  | cons hd tl ih =>
    obtain ⟨k0, v0⟩ := hd
    by_cases h : k0 = k
    · subst h
      simp [lookupA]
    · simp [lookupA, h, ih]

theorem lookupA_eraseAssoc (l : JsonObj) (key k : GoStr) :
    lookupA (eraseAssoc l key) k = if key = k then none else lookupA l k := by
  induction l with
  | nil => simp [eraseAssoc, lookupA]
  | cons hd tl ih =>
    obtain ⟨k0, v0⟩ := hd
    by_cases h0 : k0 = key
    · subst h0
      by_cases hk : k0 = k
      · subst hk
        simp [eraseAssoc, lookupA] at ih ⊢
        simpa using ih
      · simp [eraseAssoc, lookupA, hk] at ih ⊢
        simpa [hk] using ih
    · by_cases hk : k0 = k
      · subst hk
        have hne : ¬ key = k0 := fun he => h0 he.symm
        simp [eraseAssoc, lookupA, h0, hne]
      · simp [eraseAssoc, lookupA, h0, hk] at ih ⊢
        exact ih

theorem lookupA_updateAssoc (l : JsonObj) (key : GoStr) (v : Json) (k : GoStr) :
    lookupA (updateAssoc l key v) k = if key = k then some v else lookupA l k := by
  by_cases h : key = k
  · subst h
    simp [updateAssoc, lookupA]
  · simp [updateAssoc, lookupA, h, lookupA_eraseAssoc]

/-- C5: `normalizeGender` is a total function on strings agreeing pointwise
with the spec's case analysis: after trimming and lower-casing, m/male/1 ↦
male, f/female/2 ↦ female, other/o/3 ↦ other, unknown/u/0 ↦ unknown; any
other string beginning with m ↦ male, beginning with f ↦ female, and all
remaining strings ↦ unknown. -/
theorem normalizeGender_matches_claim (s : GoStr) :
    normalizeGender s = normalizeGenderClaim s := by
  unfold normalizeGender normalizeGenderClaim
  simp only [Bool.or_eq_true, beq_iff_eq, or_assoc]

/-- C6 (counterexample): the input "abcTdef" is shorter than 10 characters
yet `normalizeDate` does not return it unchanged — it cuts at the 'T'. -/
theorem normalizeDate_short_input_changed :
    normalizeDate ("abcTdef".data) = ("abc".data)
    ∧ ("abcTdef".data).length < 10
    ∧ ("abc".data) ≠ ("abcTdef".data) := by
  refine ⟨by decide, by decide, by decide⟩

/-- C6 (amended): `normalizeDate` trims surrounding whitespace, cuts at the
first 'T' or space found at a positive index of the trimmed input — even in
inputs shorter than 10 characters — and truncates what remains to its first
10 characters when at least 10 remain; an input whose trimmed form has no
separator past position 0 is returned trimmed (truncated to 10 characters
when at least 10 remain), not necessarily unchanged.  The three parts
partition all inputs by where the first separator of the trimmed input
falls: at a positive index, nowhere or at index 0 with at least 10
characters, nowhere or at index 0 with fewer than 10. -/
theorem normalizeDate_cut_then_truncate :
    (∀ s i, findSep (trimSpace s) = some i → 0 < i →
        normalizeDate s = List.take 10 (List.take i (trimSpace s)))
    ∧ (∀ s, (findSep (trimSpace s) = none ∨ findSep (trimSpace s) = some 0) →
        10 ≤ (trimSpace s).length → normalizeDate s = List.take 10 (trimSpace s))
    ∧ (∀ s, (findSep (trimSpace s) = none ∨ findSep (trimSpace s) = some 0) →
        (trimSpace s).length < 10 → normalizeDate s = trimSpace s) := by
  refine ⟨?_, ?_, ?_⟩
  · intro s i hf hi
    unfold normalizeDate
    simp only [hf, hi, if_pos]
    by_cases hlen : 10 ≤ (List.take i (trimSpace s)).length
    · rw [if_pos hlen]
    · have hle : (List.take i (trimSpace s)).length ≤ 10 :=
        Nat.le_of_lt (Nat.not_le.mp hlen)
      rw [if_neg hlen]
      exact (List.take_of_length_le hle).symm
  · intro s hf hl
    rcases hf with hf | hf
    · unfold normalizeDate
      simp only [hf]
      rw [if_pos hl]
    · unfold normalizeDate
      simp only [hf]
      simp only [Nat.lt_irrefl, if_false]
      rw [if_pos hl]
  · intro s hf hl
    rcases hf with hf | hf
    · unfold normalizeDate
      simp only [hf]
      rw [if_neg (Nat.not_le.mpr hl)]
    · unfold normalizeDate
      simp only [hf]
      simp only [Nat.lt_irrefl, if_false]
      rw [if_neg (Nat.not_le.mpr hl)]

/-- Witness for C6: concrete runs of each part of the amended statement —
an untrimmed date-time input cut at its positive separator, a trimmed
input whose separator sits at index 0 with at least 10 characters, and an
untrimmed short input with no separator, returned trimmed. -/
theorem normalizeDate_cut_then_truncate_witness :
    normalizeDate (" 2024-01-02T0304".data)
      = List.take 10 (List.take 10 (trimSpace (" 2024-01-02T0304".data)))
    ∧ normalizeDate ("T0123456789".data) = List.take 10 (trimSpace ("T0123456789".data))
    ∧ normalizeDate (" ab ".data) = trimSpace (" ab ".data) :=
  ⟨normalizeDate_cut_then_truncate.1 (" 2024-01-02T0304".data) 10 (by decide) (by decide),
   normalizeDate_cut_then_truncate.2.1 ("T0123456789".data) (Or.inr (by decide)) (by decide),
   normalizeDate_cut_then_truncate.2.2 (" ab ".data) (Or.inl (by decide)) (by decide)⟩

/-- C7 (counterexample): the float64 value 5/2 = 2.5 (exactly
representable) is extracted as "2" — the decimal string of its truncation
toward zero — not as its decimal string form "2.5". -/
theorem str_truncates_float :
    str [(("k".data), Json.num (Rat.mk' 5 2))] [("k".data)] = ("2".data)
    ∧ ("2".data) ≠ ("2.5".data) := by
  refine ⟨by decide, by decide⟩

/-- C7 (amended): in the `str` extractor a key bound to a string that is
blank after trimming or exactly "-" or "null" falls through to the next
candidate key exactly like an absent key, and a numeric value is rendered
as the decimal string of its value truncated toward zero
(`strconv.FormatInt(int64(t), 10)`). -/
theorem str_skips_null_like_and_truncates :
    (∀ m k rest, lookupA m k = none → str m (k :: rest) = str m rest)
    ∧ (∀ m k rest t, lookupA m k = some (Json.str t) →
        ((trimSpace t).isEmpty = true ∨ t = ("-".data) ∨ t = ("null".data)) →
        str m (k :: rest) = str m rest)
    ∧ (∀ m k rest q, lookupA m k = some (Json.num q) →
        str m (k :: rest) = intDecimal (truncRat q)) := by
  refine ⟨?_, ?_, ?_⟩
  · intro m k rest h
    simp only [str, h]
  · intro m k rest t h hbad
    have hg : strGood t = false := by
      unfold strGood
      rcases hbad with hb | hb | hb
      · simp [hb]
      · subst hb
        simp
      · subst hb
        simp
    simp only [str, h, hg]
    simp
  · intro m k rest q h
    simp only [str, h]

/-- Witness for C7: the fall-through and numeric cases at concrete
records. -/
theorem str_skips_null_like_and_truncates_witness :
    str [(("a".data), Json.str ("-".data)), (("b".data), Json.str ("x".data))]
        [("a".data), ("b".data)]
      = str [(("a".data), Json.str ("-".data)), (("b".data), Json.str ("x".data))] [("b".data)]
    ∧ str [(("n".data), Json.num (Rat.mk' 7 1))] [("n".data), ("z".data)]
        = intDecimal (truncRat (Rat.mk' 7 1))
    ∧ str [] [("q".data)] = str [] [] :=
  ⟨str_skips_null_like_and_truncates.2.1 _ _ _ ("-".data) rfl (Or.inr (Or.inl rfl)),
   str_skips_null_like_and_truncates.2.2 _ _ _ (Rat.mk' 7 1) rfl,
   str_skips_null_like_and_truncates.1 _ _ _ rfl⟩

/-- C3 (counterexample): a payload holding both a `details` mapping (with
firstName "A") and a `data` mapping (with firstName "B") unwraps to the
`data` mapping, not the `details` mapping the claim requires. -/
theorem unwrap_details_overridden_by_data :
    unwrapRecord
        [(("details".data), Json.obj [(("firstName".data), Json.str ("A".data))]),
         (("data".data), Json.obj [(("firstName".data), Json.str ("B".data))])]
      = [(("firstName".data), Json.str ("B".data))]
    ∧ str [(("firstName".data), Json.str ("B".data))] [("firstName".data)] = ("B".data)
    ∧ ("B".data) ≠ ("A".data) :=
  ⟨rfl, rfl, by decide⟩

/-- C3 (amended): the `details` and `data` checks of the unwrapper are two
consecutive overwriting statements, so the last match wins: a `details`
mapping is the record only when no usable `data` key follows it, a `data`
mapping is always the record, and a `data` string that parses to a mapping
is always the record. -/
theorem unwrap_data_overrides_details :
    (∀ m d, lookupA m ("details".data) = some (Json.obj d) →
        lookupA m ("data".data) = none → unwrapRecord m = d)
    ∧ (∀ m v, lookupA m ("data".data) = some (Json.obj v) → unwrapRecord m = v)
    ∧ (∀ m s inner, lookupA m ("data".data) = some (Json.str s) →
        parseJson s = some (Json.obj inner) → unwrapRecord m = inner) := by
  refine ⟨?_, ?_, ?_⟩
  · intro m d h1 h2
    simp only [unwrapRecord, h1, h2]
  · intro m v h
    simp only [unwrapRecord, h]
  · intro m s inner h hp
    simp only [unwrapRecord, h, hp]

/-- Witness for C3: the three envelope shapes at concrete payloads. -/
theorem unwrap_data_overrides_details_witness :
    unwrapRecord [(("details".data), Json.obj [(("x".data), Json.bool true)])]
      = [(("x".data), Json.bool true)]
    ∧ unwrapRecord [(("data".data), Json.obj [(("y".data), Json.null)])]
      = [(("y".data), Json.null)]
    ∧ unwrapRecord [(("data".data), Json.str ("\x7b\"a\":\"b\"\x7d".data))]
      = [(("a".data), Json.str ("b".data))] :=
  ⟨unwrap_data_overrides_details.1 _ _ rfl rfl,
   unwrap_data_overrides_details.2.1 _ _ rfl,
   unwrap_data_overrides_details.2.2 _ _ _ rfl rfl⟩

/-- C4 (counterexample): the input whose resourceType equals "Patient" only
case-insensitively ("pAtIeNt") passes the repository's own case-insensitive
check, yet the transform does not return it unchanged — `LooksLikePatient`
is the strict unmarshal, which rejects it, so the mapper runs and produces
a different document. -/
theorem transform_not_caseInsensitive_shortCircuit :
    looksLikePatient (some (Json.obj [(("resourceType".data), Json.str ("pAtIeNt".data))])) = true
    ∧ TransformBackendToFHIRPatient
        (Json.obj [(("resourceType".data), Json.str ("pAtIeNt".data))]) ("42".data)
      ≠ Except.ok (Json.obj [(("resourceType".data), Json.str ("pAtIeNt".data))]) := by
  refine ⟨by decide, ?_⟩
  have he : TransformBackendToFHIRPatient
      (Json.obj [(("resourceType".data), Json.str ("pAtIeNt".data))]) ("42".data)
      = Except.ok (Json.obj [(("resourceType".data), Json.str ("Patient".data)),
                             (("id".data), Json.str ("42".data))]) := rfl
  rw [he]
  intro h
  have hb := Except.ok.inj h
  have hm := congrArg marshal hb
  exact absurd hm (by decide)

/-- C4 (amended): the short-circuit is keyed on the strict R4 unmarshal
succeeding, not on a case-insensitive resourceType comparison: every input
the strict decoder accepts is returned unchanged by the transform, with
the mapper bypassed. -/
theorem transform_preserves_decodable (j : Json) (pid : GoStr)
    (h : r4UnmarshalOk j = true) :
    TransformBackendToFHIRPatient j pid = Except.ok j := by
  unfold TransformBackendToFHIRPatient LooksLikePatient
  simp [h]

/-- Witness for C4: a minimal already-canonical Patient passes through
unchanged. -/
theorem transform_preserves_decodable_witness :
    TransformBackendToFHIRPatient
        (Json.obj [(("resourceType".data), Json.str ("Patient".data))]) ("9".data)
      = Except.ok (Json.obj [(("resourceType".data), Json.str ("Patient".data))]) :=
  transform_preserves_decodable _ _ (by decide)

/-- C1 (counterexample): in the Go proxy (main.go), the invalid-gender
Patient — well-formed JSON, resourceType Patient, failing datatype-level
validation — is answered with status 400, not 422. -/
theorem goCreate_semanticFailure_is_400 :
    looksLikePatient (parseJson invalidGenderBytes) = true
    ∧ validatePatientR4 (parseJson invalidGenderBytes) = false
    ∧ (handleCreatePatient (parseJson invalidGenderBytes) initialState).2.status = 400
    ∧ (400 : Nat) ≠ 422 := by decide

/-- C1 (amended): in the Java validation service, a request that parses as
well-formed JSON but fails semantic/datatype-level validation — a
non-malformed-JSON DataFormatException, or a parsed Patient whose validator
run reports a blocking issue — is answered with status 422 and a report
containing at least one error/fatal issue; the Go proxy variants instead
map the same failures to status 400 with a single error/invalid issue. -/
theorem semanticFailure_maps_to_422 (p : ParseOutcome) (v : ValidatorRun)
    (h : SemanticFailure p v) :
    (processCreatePatient p v).status = 422
    ∧ ∃ rep, (processCreatePatient p v).bodyIssues = some rep ∧ hasBlocking rep = true := by
  rcases h with ⟨msg, rfl⟩ | ⟨pat, issues, rfl, rfl, hb⟩
  · exact ⟨rfl, ⟨[mkIssue Severity.error ("invalid".data) msg], rfl, rfl⟩⟩
  · have hne : issues.isEmpty = false := by
      cases issues
      · simp [hasBlocking] at hb
      · rfl
    have hout : toOperationOutcome issues = issues := by
      unfold toOperationOutcome
      rw [hne]
      simp
    have hred : processCreatePatient (ParseOutcome.parsed pat) (ValidatorRun.completed issues)
        = { status := 422, bodyIssues := some (toOperationOutcome issues),
            bodyPatient := none, headerOutcome := some (toOperationOutcome issues) } := by
      unfold processCreatePatient
      simp [isSuccessful, hb]
    rw [hred, hout]
    exact ⟨rfl, ⟨issues, rfl, hb⟩⟩

/-- Witness for C1: a concrete datatype-level failure. -/
theorem semanticFailure_maps_to_422_witness :
    (processCreatePatient (ParseOutcome.dataFormatInvalid ("invalid gender code".data))
        (ValidatorRun.completed [])).status = 422
    ∧ ∃ rep, (processCreatePatient (ParseOutcome.dataFormatInvalid ("invalid gender code".data))
        (ValidatorRun.completed [])).bodyIssues = some rep ∧ hasBlocking rep = true :=
  semanticFailure_maps_to_422 _ _ (Or.inl ⟨_, rfl⟩)

/-- C2 (counterexample): in the Go proxy (main.go), a well-formed
Observation body POSTed to /fhir/Patient is answered 400, but the first
issue of the OperationOutcome has severity "error" and code "invalid",
not the claimed fatal/exception. -/
theorem goCreate_wrongType_error_invalid :
    (handleCreatePatient (parseJson observationBytes) initialState).2.status = 400
    ∧ firstIssueSeverity (handleCreatePatient (parseJson observationBytes) initialState).2
        = some ("error".data)
    ∧ firstIssueCode (handleCreatePatient (parseJson observationBytes) initialState).2
        = some ("invalid".data)
    ∧ ("error".data) ≠ ("fatal".data) := by decide

/-- C2 (amended): in the Java validation service, a body that parses to a
resource of a type other than Patient is answered 400 and the (single)
first issue of the returned OperationOutcome has severity fatal and code
exception, naming the actual type; the Go proxy variants instead answer
400 with a single error/invalid issue. -/
theorem javaWrongType_400_fatal_exception (t : GoStr) (v : ValidatorRun) :
    (processCreatePatient (ParseOutcome.wrongType t) v).status = 400
    ∧ (processCreatePatient (ParseOutcome.wrongType t) v).bodyIssues
        = some [mkIssue Severity.fatal ("exception".data)
            (("Expected a Patient resource but received: ".data) ++ t)] :=
  ⟨rfl, rfl⟩

theorem chunkOkFor_of_entries (ck : GoStr) (m : JsonObj)
    (h : ∀ kv ∈ m, kv.1 ≠ ck ∨ ∃ x xs, kv.2 = Json.arr (x :: xs)) :
    chunkOkFor ck m = true := by
  induction m with
  | nil => rfl
  | cons hd tl ih =>
    obtain ⟨k0, v0⟩ := hd
    by_cases hk : k0 = ck
    · subst hk
      rcases h (k0, v0) (List.mem_cons_self _ _) with hne | ⟨x, xs, hv⟩
      · exact absurd rfl hne
      · subst hv
        simp [chunkOkFor, lookupA]
    · have hstep : chunkOkFor ck ((k0, v0) :: tl) = chunkOkFor ck tl := by
        simp [chunkOkFor, lookupA, hk]
      rw [hstep]
      exact ih (fun kv hm => h kv (List.mem_cons_of_mem _ hm))

theorem goodEntry_guard (k : GoStr) (hk : k ∉ patientCollectionKeys) (b : Bool) (v : Json) :
    ∀ kv ∈ guardField k b v, GoodEntry kv := by
  intro kv hm
  unfold guardField at hm
  cases b
  · simp at hm
  · simp at hm
    subst hm
    exact Or.inl hk

theorem goodEntry_guardArr (k : GoStr) (b : Bool) (x : Json) (xs : List Json) :
    ∀ kv ∈ guardField k b (Json.arr (x :: xs)), GoodEntry kv := by
  intro kv hm
  unfold guardField at hm
  cases b
  · simp at hm
  · simp at hm
    subst hm
    exact Or.inr ⟨x, xs, rfl⟩

theorem goodEntry_listField (k : GoStr) (l : List Json) :
    ∀ kv ∈ listField k l, GoodEntry kv := by
  intro kv hm
  unfold listField at hm
  cases l with
  | nil => simp at hm
  | cons x xs =>
    simp at hm
    subst hm
    exact Or.inr ⟨x, xs, rfl⟩

theorem goodEntry_objListField (k : GoStr) (fields : JsonObj) :
    ∀ kv ∈ objListField k fields, GoodEntry kv := by
  intro kv hm
  unfold objListField at hm
  cases fields with
  | nil => simp at hm
  | cons f fs =>
    simp at hm
    subst hm
    exact Or.inr ⟨Json.obj (f :: fs), [], rfl⟩

theorem goodEntry_append (a b : JsonObj)
    (ha : ∀ kv ∈ a, GoodEntry kv) (hb : ∀ kv ∈ b, GoodEntry kv) :
    ∀ kv ∈ a ++ b, GoodEntry kv := by
  intro kv hm
  rcases List.mem_append.mp hm with h | h
  · exact ha kv h
  · exact hb kv h

theorem buildPatient_goodEntries (payload : JsonObj) (pid : GoStr) :
    ∀ kv ∈ buildPatient payload pid, GoodEntry kv := by
  unfold buildPatient
  apply goodEntry_append
  · intro kv hm
    simp at hm
    rcases hm with h | h
    · subst h
      exact Or.inl (show ("resourceType".data : GoStr) ∉ patientCollectionKeys from by decide)
    · subst h
      exact Or.inl (show ("id".data : GoStr) ∉ patientCollectionKeys from by decide)
  apply goodEntry_append
  · intro kv hm
    unfold activeChunk at hm
    exact goodEntry_guard _ (by decide) _ _ kv hm
  apply goodEntry_append
  · intro kv hm
    unfold identifierChunk at hm
    exact goodEntry_listField _ _ kv hm
  apply goodEntry_append
  · intro kv hm
    unfold nameChunk at hm
    exact goodEntry_objListField _ _ kv hm
  apply goodEntry_append
  · intro kv hm
    simp only [genderChunk] at hm
    split at hm
    · simp at hm
      subst hm
      exact Or.inl (show ("gender".data : GoStr) ∉ patientCollectionKeys from by decide)
    · exact goodEntry_guard _ (by decide) _ _ kv hm
  apply goodEntry_append
  · intro kv hm
    unfold birthChunk at hm
    exact goodEntry_guard _ (by decide) _ _ kv hm
  apply goodEntry_append
  · intro kv hm
    unfold maritalChunk at hm
    exact goodEntry_guard _ (by decide) _ _ kv hm
  apply goodEntry_append
  · intro kv hm
    unfold commChunk at hm
    exact goodEntry_guardArr _ _ _ _ kv hm
  apply goodEntry_append
  · intro kv hm
    unfold deceasedChunk at hm
    rcases hdb : boolv payload [("isDeceased".data)] with _ | db
    · rw [hdb] at hm
      simp at hm
    · rw [hdb] at hm
      simp at hm
      subst hm
      exact Or.inl (show ("deceasedBoolean".data : GoStr) ∉ patientCollectionKeys from by decide)
  apply goodEntry_append
  · intro kv hm
    unfold telecomChunk at hm
    exact goodEntry_listField _ _ kv hm
  apply goodEntry_append
  · intro kv hm
    unfold addressChunk at hm
    exact goodEntry_objListField _ _ kv hm
  apply goodEntry_append
  · intro kv hm
    unfold managingOrgChunk at hm
    exact goodEntry_guard _ (by decide) _ _ kv hm
  apply goodEntry_append
  · intro kv hm
    unfold gpChunk at hm
    exact goodEntry_listField _ _ kv hm
  apply goodEntry_append
  · intro kv hm
    unfold linkChunk at hm
    exact goodEntry_guardArr _ _ _ _ kv hm
  apply goodEntry_append
  · intro kv hm
    unfold contactChunk at hm
    exact goodEntry_listField _ _ kv hm
  intro kv hm
  unfold photoChunk at hm
  exact goodEntry_listField _ _ kv hm

/-- C8: for every backend record and pathID, the mapped Patient has
`resourceType` present and literally "Patient", `id` equal to the pathID
verbatim, and every collection field that is present (identifier, name,
telecom, address, generalPractitioner, link, contact, photo,
communication) bound to a non-empty array — empty collections are omitted
rather than emitted. -/
theorem buildPatient_invariants (payload : JsonObj) (pid : GoStr) :
    lookupA (buildPatient payload pid) ("resourceType".data) = some (Json.str ("Patient".data))
    ∧ lookupA (buildPatient payload pid) ("id".data) = some (Json.str pid)
    ∧ collectionsOk (buildPatient payload pid) = true := by
  refine ⟨?_, ?_, ?_⟩
  · unfold buildPatient
    rw [lookupA_append]
    rw [lookupA_head]
  · unfold buildPatient
    rw [lookupA_append]
    rw [lookupA_cons_ne _ _ _ _ (by decide), lookupA_head]
  · unfold collectionsOk
    refine List.all_eq_true.mpr ?_
    intro ck hck
    apply chunkOkFor_of_entries
    intro kv hkv
    rcases buildPatient_goodEntries payload pid kv hkv with hnot | hex
    · refine Or.inl (fun he => hnot ?_)
      rw [he]
      exact hck
    · exact Or.inr hex

/-- C9 (counterexample): POSTing `{"resourceType":"Patient","active":true}`
and fetching the returned Location yields
`{"active":true,"id":"1","resourceType":"Patient"}` — the body was
re-marshalled with sorted keys, so the response is not the submitted bytes
with the id field spliced in at any position. -/
theorem roundtrip_not_byte_identical :
    postThenGetBytes roundtripSubmitBytes
      = some (("\x7b\"active\":true,\"id\":\"1\",\"resourceType\":\"Patient\"\x7d".data))
    ∧ isInsertionOf roundtripSubmitBytes
        (("\x7b\"active\":true,\"id\":\"1\",\"resourceType\":\"Patient\"\x7d".data)) = false := by
  exact ⟨by decide, by decide⟩

/-- C9 (amended): the round trip is value-identical rather than
byte-identical — a valid Patient object POSTed to /fhir/Patient is stored
under the assigned id, the returned Location names that id, and GETting it
returns exactly the submitted JSON object with the id member overwritten
to the assigned id (the bytes are re-serialized by `json.Marshal`). -/
theorem create_then_get_value_roundtrip (m : JsonObj) (st : ServerState)
    (h1 : looksLikePatient (some (Json.obj m)) = true)
    (h2 : validatePatientR4 (some (Json.obj m)) = true) :
    (handleCreatePatient (some (Json.obj m)) st).2.location
        = some (("/fhir/Patient/".data) ++ intDecimal (st.nextID + 1))
    ∧ handleGetPatient (intDecimal (st.nextID + 1)) (handleCreatePatient (some (Json.obj m)) st).1
        = { status := 200, location := none,
            body := Json.obj (updateAssoc m ("id".data) (Json.str (intDecimal (st.nextID + 1)))) }
    ∧ lookupA (updateAssoc m ("id".data) (Json.str (intDecimal (st.nextID + 1)))) ("id".data)
        = some (Json.str (intDecimal (st.nextID + 1)))
    ∧ ∀ k, k ≠ ("id".data) →
        lookupA (updateAssoc m ("id".data) (Json.str (intDecimal (st.nextID + 1)))) k
          = lookupA m k := by
  have hred : handleCreatePatient (some (Json.obj m)) st
      = ({ patientStore := updateAssoc st.patientStore (intDecimal (st.nextID + 1))
              (Json.obj (updateAssoc m ("id".data) (Json.str (intDecimal (st.nextID + 1))))),
           nextID := st.nextID + 1 },
         { status := 201,
           location := some (("/fhir/Patient/".data) ++ intDecimal (st.nextID + 1)),
           body := Json.obj (updateAssoc m ("id".data) (Json.str (intDecimal (st.nextID + 1)))) }) := by
    unfold handleCreatePatient
    simp [h1, h2]
  rw [hred]
  refine ⟨rfl, ?_, ?_, ?_⟩
  · unfold handleGetPatient
    rw [lookupA_updateAssoc]
    simp
  · rw [lookupA_updateAssoc]
    simp
  · intro k hk
    rw [lookupA_updateAssoc]
    exact if_neg (fun he => hk he.symm)

/-- Witness for C9: the round trip at a concrete Patient and fresh state. -/
theorem create_then_get_value_roundtrip_witness :
    handleGetPatient (intDecimal (initialState.nextID + 1))
        (handleCreatePatient
          (some (Json.obj [(("resourceType".data), Json.str ("Patient".data))]))
          initialState).1
      = { status := 200, location := none,
          body := Json.obj (updateAssoc [(("resourceType".data), Json.str ("Patient".data))]
            ("id".data) (Json.str (intDecimal (initialState.nextID + 1)))) } :=
  (create_then_get_value_roundtrip [(("resourceType".data), Json.str ("Patient".data))]
    initialState (by decide) (by decide)).2.1

theorem storeOk_create (b : Option Json) (s : ServerState) (h : StoreOk s) :
    StoreOk (handleCreatePatient b s).1 := by
  by_cases hl : looksLikePatient b
  · by_cases hv : validatePatientR4 b
    · cases b with
      | none => simp [looksLikePatient] at hl
      | some j =>
        cases j with
        | obj m =>
          have hred : (handleCreatePatient (some (Json.obj m)) s).1
              = { patientStore := updateAssoc s.patientStore (intDecimal (s.nextID + 1))
                    (Json.obj (updateAssoc m ("id".data) (Json.str (intDecimal (s.nextID + 1))))),
                  nextID := s.nextID + 1 } := by
            unfold handleCreatePatient
            simp [hl, hv]
          rw [hred]
          intro k v hk
          simp only at hk
          rw [lookupA_updateAssoc] at hk
          by_cases hik : intDecimal (s.nextID + 1) = k
          · rw [if_pos hik] at hk
            refine ⟨updateAssoc m ("id".data) (Json.str (intDecimal (s.nextID + 1))),
              (Option.some.inj hk).symm, ?_⟩
            rw [lookupA_updateAssoc, if_pos rfl, hik]
          · rw [if_neg hik] at hk
            exact h k v hk
        | null => simp [looksLikePatient] at hl
        | bool b0 => simp [looksLikePatient] at hl
        | num q => simp [looksLikePatient] at hl
        | str s0 => simp [looksLikePatient] at hl
        | arr xs => simp [looksLikePatient] at hl
    · have hred : (handleCreatePatient b s).1 = s := by
        unfold handleCreatePatient
        simp [hl, hv]
      rw [hred]
      exact h
  · have hred : (handleCreatePatient b s).1 = s := by
      unfold handleCreatePatient
      simp [hl]
    rw [hred]
    exact h

theorem storeOk_put (id : GoStr) (b : Option Json) (s : ServerState) (h : StoreOk s) :
    StoreOk (handlePutPatient id b s).1 := by
  by_cases hl : looksLikePatient b
  · by_cases hv : validatePatientR4 b
    · cases hex : lookupA s.patientStore id with
      | none =>
        have hred : (handlePutPatient id b s).1 = s := by
          unfold handlePutPatient
          simp [hl, hv, hex]
        rw [hred]
        exact h
      | some w =>
        cases b with
        | none => simp [looksLikePatient] at hl
        | some j =>
          cases j with
          | obj m =>
            have hred : (handlePutPatient id (some (Json.obj m)) s).1
                = { s with patientStore := updateAssoc s.patientStore id (Json.obj (updateAssoc m ("id".data) (Json.str id))) } := by
              unfold handlePutPatient
              simp [hl, hv, hex]
            rw [hred]
            intro k v hk
            simp only at hk
            rw [lookupA_updateAssoc] at hk
            by_cases hik : id = k
            · rw [if_pos hik] at hk
              refine ⟨updateAssoc m ("id".data) (Json.str id),
                (Option.some.inj hk).symm, ?_⟩
              rw [lookupA_updateAssoc, if_pos rfl, hik]
            · rw [if_neg hik] at hk
              exact h k v hk
          | null => simp [looksLikePatient] at hl
          | bool b0 => simp [looksLikePatient] at hl
          | num q => simp [looksLikePatient] at hl
          | str s0 => simp [looksLikePatient] at hl
          | arr xs => simp [looksLikePatient] at hl
    · have hred : (handlePutPatient id b s).1 = s := by
        unfold handlePutPatient
        simp [hl, hv]
      rw [hred]
      exact h
  · have hred : (handlePutPatient id b s).1 = s := by
      unfold handlePutPatient
      simp [hl]
    rw [hred]
    exact h

theorem storeOk_del (id : GoStr) (s : ServerState) (h : StoreOk s) :
    StoreOk (handleDeletePatient id s).1 := by
  cases hex : lookupA s.patientStore id with
  | none =>
    have hred : (handleDeletePatient id s).1 = s := by
      unfold handleDeletePatient
      simp [hex]
    rw [hred]
    exact h
  | some w =>
    have hred : (handleDeletePatient id s).1
        = { s with patientStore := eraseAssoc s.patientStore id } := by
      unfold handleDeletePatient
      simp [hex]
    rw [hred]
    intro k v hk
    simp only at hk
    rw [lookupA_eraseAssoc] at hk
    by_cases hik : id = k
    · rw [if_pos hik] at hk
      exact absurd hk (by simp)
    · rw [if_neg hik] at hk
      exact h k v hk

/-- C10: in every reachable store state, every stored value is a JSON
object whose "id" member equals the key it is stored under — both create
and update overwrite any client-supplied id with the server-assigned or
path id before storing, so a body-supplied id is never persisted. -/
theorem reachable_storeOk (s : ServerState) (h : Reachable s) : StoreOk s := by
  induction h with
  | init =>
    intro k v hk
    simp [initialState, lookupA] at hk
  | create b s hs ih => exact storeOk_create b s ih
  | put id b s hs ih => exact storeOk_put id b s ih
  | del id s hs ih => exact storeOk_del id s ih

/-- Witness for C10: the state after one successful create (whose body even
carries no id of its own) is reachable and satisfies the invariant. -/
theorem reachable_storeOk_witness :
    StoreOk (handleCreatePatient
      (some (Json.obj [(("resourceType".data), Json.str ("Patient".data))]))
      initialState).1 :=
  reachable_storeOk _ (Reachable.create _ _ Reachable.init)
